import Mathlib

/-!
Shallow embedding of the CHERI capability-relocation and capability-table
subsystem of the lld ELF linker (src/ELF/Arch/Cheri.h) together with the
diagnostic sink it reports to (src/ELF/Error.cpp).

External handles (`InputSectionBase *`, `Symbol *`) are modelled as natural
numbers; machine integers are `Nat` (unsigned) or `Int` (signed) with explicit
`% 2^w` where overflow can matter; functions that print or terminate the
process return explicit result records instead.
-/

namespace LldCheri

/-! ## Diagnostic sink (src/ELF/Error.cpp)

`Config->ErrorLimit`, `Config->WarningLimit`, `Config->ExitEarly`,
`Config->FatalWarnings` are the configuration fields consulted by
`elf::error` and `elf::warn`.  `ErrorCount` is the global error counter and
`WarningCount` the function-local static counter of `elf::warn`; both live in
`DiagState`.  Printing to `ErrorOS` is modelled by the Boolean fields of
`ErrorResult`; `exitLld` (called when `Config->ExitEarly` is set at the error
limit) is modelled by `exited = true`, in which case no further statement of
the source function runs. -/

structure Config where
  ErrorLimit : Nat
  WarningLimit : Nat
  ExitEarly : Bool
  FatalWarnings : Bool
deriving DecidableEq, Repr

structure DiagState where
  ErrorCount : Nat
  WarningCount : Nat
deriving DecidableEq, Repr

structure ErrorResult where
  st : DiagState
  /-- the message itself was printed to the error stream -/
  printedMsg : Bool
  /-- the "too many errors/warnings emitted, stopping now" notice was printed -/
  printedTooMany : Bool
  /-- the process was terminated via `exitLld(1)` before the function returned -/
  exited : Bool
deriving DecidableEq, Repr

namespace elf

/-- `elf::error` (src/ELF/Error.cpp lines 92-108): print the message while the
error count is below the limit (or the limit is 0 = unlimited); print the
"too many errors" notice exactly when the count equals the limit, and exit
there when `ExitEarly` is configured (so `++ErrorCount` never runs on that
path); otherwise suppress output.  Every path that returns ends with
`++ErrorCount`. -/
def error (cfg : Config) (st : DiagState) : ErrorResult :=
  if cfg.ErrorLimit == 0 || st.ErrorCount < cfg.ErrorLimit then
    ⟨{ st with ErrorCount := st.ErrorCount + 1 }, true, false, false⟩
  else if st.ErrorCount == cfg.ErrorLimit then
    if cfg.ExitEarly then
      ⟨st, false, true, true⟩
    else
      ⟨{ st with ErrorCount := st.ErrorCount + 1 }, false, true, false⟩
  else
    ⟨{ st with ErrorCount := st.ErrorCount + 1 }, false, false, false⟩

/-- `elf::warn` (src/ELF/Error.cpp lines 73-90): with `Config->FatalWarnings`
it delegates to `elf::error` and returns; otherwise it mirrors the error-limit
logic on the function-local `WarningCount` (which, unlike the error path,
increments on every call because `warn` never exits). -/
def warn (cfg : Config) (st : DiagState) : ErrorResult :=
  if cfg.FatalWarnings then
    error cfg st
  else if cfg.WarningLimit == 0 || st.WarningCount < cfg.WarningLimit then
    ⟨{ st with WarningCount := st.WarningCount + 1 }, true, false, false⟩
  else if st.WarningCount == cfg.WarningLimit then
    ⟨{ st with WarningCount := st.WarningCount + 1 }, false, true, false⟩
  else
    ⟨{ st with WarningCount := st.WarningCount + 1 }, false, false, false⟩

end elf

/-! ## Core data types (src/ELF/Arch/Cheri.h) -/

/-- `SymbolAndOffset`: a `Symbol *` (handle) plus a signed 64-bit offset. -/
structure SymbolAndOffset where
  Sym : Nat
  Offset : Int
deriving DecidableEq, Repr

/-- `CheriCapRelocLocation`: where in the final image a capability slot
lives.  `Section` is the `InputSectionBase *` handle, `Offset` a `uint64_t`. -/
structure CheriCapRelocLocation where
  Sec : Nat
  Offset : Nat
  NeedsDynReloc : Bool
deriving DecidableEq, Repr

/-- `CheriCapRelocLocation::operator==` (Cheri.h lines 49-51): compares
`Section` and `Offset` only; `NeedsDynReloc` is ignored. -/
def CheriCapRelocLocation.locEq (a b : CheriCapRelocLocation) : Bool :=
  a.Sec == b.Sec && a.Offset == b.Offset

/-- `CheriCapReloc`: the payload stored for one capability relocation. -/
structure CheriCapReloc where
  Target : SymbolAndOffset
  CapabilityOffset : Int
  NeedsDynReloc : Bool
deriving DecidableEq, Repr

/-- `CheriCapReloc::operator==` (Cheri.h lines 62-67): structural over
`Target.Sym`, `Target.Offset`, `CapabilityOffset` and `NeedsDynReloc`. -/
def CheriCapReloc.relEq (a b : CheriCapReloc) : Bool :=
  a.Target.Sym == b.Target.Sym &&
  a.Target.Offset == b.Target.Offset &&
  a.CapabilityOffset == b.CapabilityOffset &&
  a.NeedsDynReloc == b.NeedsDynReloc

/-! ## The relocation map (`llvm::MapVector<CheriCapRelocLocation, CheriCapReloc>`)

A `MapVector` preserves first-insertion order and its `insert` is a no-op
when the key is already present, returning the iterator to the existing
element and an `Inserted` flag; we model it as an association list keyed by
`CheriCapRelocLocation.locEq`. -/

abbrev RelocsMap := List (CheriCapRelocLocation × CheriCapReloc)

/-- Find the record stored at a location, comparing keys with
`CheriCapRelocLocation.locEq` as the `DenseMapInfo::isEqual` of the backing
map does. -/
def RelocsMap.find : RelocsMap → CheriCapRelocLocation → Option CheriCapReloc
  | [], _ => none
  | (k, v) :: rest, l => if k.locEq l then some v else RelocsMap.find rest l

/-- Result of `MapVector::insert`: the updated map, the value the returned
iterator points at (the pre-existing one if the key was present, the new one
otherwise), and the `Inserted` flag (`it.second`). -/
structure InsertResult where
  map : RelocsMap
  value : CheriCapReloc
  inserted : Bool

/-- `MapVector::insert(std::make_pair(Loc, Relocation))`: appends at the end
iff the key is absent. -/
def RelocsMap.insert (m : RelocsMap) (Loc : CheriCapRelocLocation)
    (Relocation : CheriCapReloc) : InsertResult :=
  match m.find Loc with
  | some v => ⟨m, v, false⟩
  | none => ⟨m ++ [(Loc, Relocation)], Relocation, true⟩

/-- Result of `CheriCapRelocsSection::addEntry` together with its effect on
the diagnostic sink. -/
structure AddEntryResult where
  map : RelocsMap
  diag : DiagState
  /-- number of `error(...)` calls made during this `addEntry` call -/
  errorsReported : Nat
  /-- the `error` call terminated the process (error limit + `ExitEarly`) -/
  exited : Bool
  /-- the Boolean return value of `addEntry` (`it.second`) -/
  inserted : Bool
deriving DecidableEq

namespace CheriCapRelocsSection

/-- `CheriCapRelocsSection::addEntry` (Cheri.h lines 86-100): insert into the
`MapVector`; if the value the iterator points at after the insert differs
structurally from the proposed `Relocation`, report one conflict through
`elf::error`; return `it.second`. -/
def addEntry (cfg : Config) (diag : DiagState) (m : RelocsMap)
    (Loc : CheriCapRelocLocation) (Relocation : CheriCapReloc) : AddEntryResult :=
  let it := m.insert Loc Relocation
  if it.value.relEq Relocation then
    ⟨it.map, diag, 0, false, it.inserted⟩
  else
    let r := elf.error cfg diag
    ⟨it.map, r.st, 1, r.exited, it.inserted⟩

/-- `CheriCapRelocsSection::RelocSize` (Cheri.h line 73). -/
def RelocSize : Nat := 40

/-- Modelled from the spec: the `CheriCapRelocsSection` constructor (in
Cheri.cpp, which is not part of src/) sets the section's `Entsize`; the spec
fixes `size_in_bytes()` to `entry_count * 40`, matching the header's
`RelocSize = 40` constant, so `Entsize = RelocSize`. -/
def Entsize : Nat := RelocSize

/-- `CheriCapRelocsSection::getSize` (Cheri.h line 77):
`RelocsMap.size() * Entsize`. -/
def getSize (m : RelocsMap) : Nat := m.length * Entsize

end CheriCapRelocsSection

/-! ## On-disk record layout (`InMemoryCapRelocEntry`, Cheri.h lines 14-26) -/

/-- `InMemoryCapRelocEntry<E>`: five `uint64_t` fields stored in target
endianness, in declaration order `capability_location`, `object`, `offset`,
`size`, `permissions`. -/
structure InMemoryCapRelocEntry where
  capability_location : Nat
  object : Nat
  offset : Nat
  size : Nat
  permissions : Nat
deriving DecidableEq, Repr

/-- The byte image of one `packed_endian_specific_integral<uint64_t, E,
aligned>` field: eight bytes, least-significant first when `E` is little
endian, most-significant first otherwise.  The stored value is the field's
value truncated to 64 bits. -/
def u64Bytes (isLittle : Bool) (v : Nat) : List Nat :=
  let w := v % 2 ^ 64
  let le := [w % 2 ^ 8, w / 2 ^ 8 % 2 ^ 8, w / 2 ^ 16 % 2 ^ 8, w / 2 ^ 24 % 2 ^ 8,
             w / 2 ^ 32 % 2 ^ 8, w / 2 ^ 40 % 2 ^ 8, w / 2 ^ 48 % 2 ^ 8, w / 2 ^ 56 % 2 ^ 8]
  if isLittle then le else le.reverse

/-- Decode eight bytes back to a `uint64_t` value, honouring endianness. -/
def u64Decode (isLittle : Bool) (bs : List Nat) : Nat :=
  let le := if isLittle then bs else bs.reverse
  (le.enum.map (fun p => p.2 * 2 ^ (8 * p.1))).sum

/-- The 40-byte image of one `InMemoryCapRelocEntry<E>`: the five fields in
struct declaration order (the struct is packed: `CapRelocUint64` is an
aligned `uint64_t`, so the fields occupy bytes 0-7, 8-15, ..., 32-39). -/
def InMemoryCapRelocEntry.bytes (isLittle : Bool) (e : InMemoryCapRelocEntry) : List Nat :=
  u64Bytes isLittle e.capability_location ++ u64Bytes isLittle e.object ++
  u64Bytes isLittle e.offset ++ u64Bytes isLittle e.size ++
  u64Bytes isLittle e.permissions

/-! ## Finalization and emission order of the __cap_relocs section -/

namespace CheriCapRelocsSection

/-- Modelled from the spec: `CheriCapRelocsSection::addCapReloc` (in
Cheri.cpp, not part of src/) sets the `ContainsDynamicRelocations` flag
(Cheri.h lines 105-107) when an entry needing a dynamic relocation is added;
the spec states the table "records itself as containing dynamic relocations"
iff some entry has `needs_dynamic_fixup = true`. -/
def containsDynamicRelocations (m : RelocsMap) : Bool :=
  m.any (fun e => e.2.NeedsDynReloc)

/-- Total order on locations used for the canonical sort of a table without
dynamic relocations: lexicographic on `(Section, Offset)`. -/
def locLe (a b : CheriCapRelocLocation) : Bool :=
  a.Sec < b.Sec || (a.Sec == b.Sec && a.Offset ≤ b.Offset)

def insertByLoc (x : CheriCapRelocLocation × CheriCapReloc) :
    RelocsMap → RelocsMap
  | [] => [x]
  | y :: rest => if locLe x.1 y.1 then x :: y :: rest else y :: insertByLoc x rest

def sortByLoc : RelocsMap → RelocsMap
  | [] => []
  | x :: rest => insertByLoc x (sortByLoc rest)

/-- Modelled from the spec: `CheriCapRelocsSection::finalizeContents` /
`writeTo` (in Cheri.cpp, not part of src/) decide the emission order; per the
header comment (Cheri.h lines 105-107) and the spec, the section cannot be
sorted when it contains dynamic relocations and keeps first-insertion order
then, and may otherwise be emitted in a canonical `(section, offset)` order. -/
def emissionOrder (m : RelocsMap) : RelocsMap :=
  if containsDynamicRelocations m then m else sortByLoc m

/-- Modelled from the spec: `CheriCapRelocsSection::writeTo` (in Cheri.cpp,
not part of src/) writes one 40-byte `InMemoryCapRelocEntry` per entry, in
the emission order; the final numeric field values (resolved addresses,
sizes, permissions) come from external collaborators, abstracted here as the
`resolve` argument. -/
def writeTo (isLittle : Bool)
    (resolve : CheriCapRelocLocation × CheriCapReloc → InMemoryCapRelocEntry)
    (m : RelocsMap) : List Nat :=
  ((emissionOrder m).map (fun ent => (resolve ent).bytes isLittle)).flatten

end CheriCapRelocsSection

/-! ## The capability table (`CheriCapTableSection`, Cheri.h lines 112-138) -/

/-- `CheriCapTableSection::CapTableIndex` (Cheri.h lines 127-135). -/
structure CapTableIndex where
  Index : Option Nat
  NeedsSmallImm : Bool
deriving DecidableEq, Repr

/-- The `llvm::MapVector<Symbol *, CapTableIndex> Entries` member, with
`Symbol *` as a handle. -/
abbrev CapTableEntries := List (Nat × CapTableIndex)

namespace CheriCapTableSection

/-- `CheriCapTableSection::getSize` (Cheri.h lines 120-125): asserts
`Config->CapabilitySize > 0` whenever entries are present (modelled as
`none`, the assertion failure), then returns
`Entries.size() * Config->CapabilitySize`. -/
def getSize (Entries : CapTableEntries) (CapabilitySize : Nat) : Option Nat :=
  if !Entries.isEmpty && !(CapabilitySize > 0) then none
  else some (Entries.length * CapabilitySize)

/-- Modelled from the spec:
`CheriCapTableSection::assignValuesAndAddCapTableSymbols` is declared at
Cheri.h line 119 but implemented in Cheri.cpp, which is not part of src/.
Per the spec and the comment at Cheri.h lines 128-132, finalization orders
all entries that need a small immediate before all entries that do not,
keeping each group in first-insertion order.  This is that emission order,
before indices are attached. -/
def assignOrder (Entries : CapTableEntries) : CapTableEntries :=
  Entries.filter (fun e => e.2.NeedsSmallImm) ++
  Entries.filter (fun e => !e.2.NeedsSmallImm)

/-- Modelled from the spec: the index-assignment half of
`assignValuesAndAddCapTableSymbols` (Cheri.cpp, not part of src/): each entry
of the reordered list receives consecutive indices `0, 1, 2, ...`. -/
def assignIndices (Entries : CapTableEntries) : CapTableEntries :=
  (assignOrder Entries).enum.map (fun p => (p.2.1, { p.2.2 with Index := some p.1 }))

end CheriCapTableSection

/-! ## The .global_sizes walk (`foreachGlobalSizesSymbol`, Cheri.h 140-162) -/

/-- The fields of a `Defined` symbol consulted by the walk: its section
(`D->Section`, a handle), `D->isSection()`, `D->isLocal()`, `D->getName()`
and `D->Value`. -/
structure Defined where
  Sec : Nat
  isSec : Bool
  isLocal : Bool
  name : String
  value : Nat
deriving DecidableEq, Repr

/-- A symbol of the input file: `dyn_cast<Defined>` succeeds or fails. -/
inductive InputSym where
  | defined (D : Defined)
  | other
deriving DecidableEq, Repr

/-- `Symtab->find(Name)`: global symbol-table lookup, `Symbol *` or null. -/
def symtabFind (symtab : List (String × Nat)) (Name : String) : Option Nat :=
  match symtab with
  | [] => none
  | (n, s) :: rest => if n = Name then some s else symtabFind rest Name

/-- `foreachGlobalSizesSymbol` (Cheri.h lines 140-162) over the symbols of
`IS->File`: skip non-`Defined` symbols and symbols of other sections; skip
the initial anonymous local section symbol; report an error (and continue)
when a name lacks the `.size.` marker; otherwise strip the marker, look the
target up in the global symbol table and invoke the callback with
`(RealSymName, Target, D->Value)`.  Returns the number of `error` calls and
the list of callback invocations in walk order. -/
def foreachGlobalSizesSymbol (IS : Nat) (symtab : List (String × Nat)) :
    List InputSym → Nat × List (String × Option Nat × Nat)
  | [] => (0, [])
  | .other :: rest => foreachGlobalSizesSymbol IS symtab rest
  | .defined D :: rest =>
    if D.Sec ≠ IS then
      foreachGlobalSizesSymbol IS symtab rest
    else if D.isSec && D.isLocal && D.name == "" then
      foreachGlobalSizesSymbol IS symtab rest
    else if !(D.name.startsWith ".size.") then
      let r := foreachGlobalSizesSymbol IS symtab rest
      (r.1 + 1, r.2)
    else
      let RealSymName := D.name.drop ".size.".length
      let r := foreachGlobalSizesSymbol IS symtab rest
      (r.1, (RealSymName, symtabFind symtab RealSymName, D.value) :: r.2)

/-- The symbols the walk actually visits (reaches the name check for):
`Defined`, belonging to `IS`, and not the anonymous local section symbol. -/
def visitedSyms (IS : Nat) (syms : List InputSym) : List Defined :=
  syms.filterMap fun s =>
    match s with
    | .defined D =>
      if D.Sec ≠ IS then none
      else if D.isSec && D.isLocal && D.name == "" then none
      else some D
    | .other => none

/-! ## DenseMapInfo hashing for CheriCapRelocLocation (Cheri.h 168-183)

`DenseMapInfo<CheriCapRelocLocation>::getHashValue` forwards to
`DenseMapInfo<std::pair<InputSectionBase *, uint64_t>>::getHashValue` on
`(Val.Section, Val.Offset)`.  The llvm library functions it delegates to are
reproduced here: the pointer hash `(ptr >> 4) ^ (ptr >> 9)` on the
32-bit-truncated pointer, the 64-bit integer hash `(unsigned)(Val * 37)`,
and the pair mix (a 64→32 bit finalizer). -/

/-- Bitwise complement on a 64-bit value. -/
def notU64 (x : Nat) : Nat := Nat.xor x (2 ^ 64 - 1)

/-- `DenseMapInfo<T *>::getHashValue`. -/
def ptrHash (P : Nat) : Nat :=
  Nat.xor (P % 2 ^ 32 / 2 ^ 4) (P % 2 ^ 32 / 2 ^ 9)

/-- `DenseMapInfo<unsigned long long>::getHashValue`. -/
def u64Hash (v : Nat) : Nat := v * 37 % 2 ^ 64 % 2 ^ 32

/-- `DenseMapInfo<std::pair<T, U>>::getHashValue`: pack the two 32-bit hashes
into one 64-bit key and run the 64→32 bit mix. -/
def pairHash (a b : Nat) : Nat :=
  let key := (a % 2 ^ 32 * 2 ^ 32 + b % 2 ^ 32) % 2 ^ 64
  let key := (key + notU64 (key * 2 ^ 32 % 2 ^ 64)) % 2 ^ 64
  let key := Nat.xor key (key / 2 ^ 22)
  let key := (key + notU64 (key * 2 ^ 13 % 2 ^ 64)) % 2 ^ 64
  let key := Nat.xor key (key / 2 ^ 8)
  let key := (key + key * 2 ^ 3 % 2 ^ 64) % 2 ^ 64
  let key := Nat.xor key (key / 2 ^ 15)
  let key := (key + notU64 (key * 2 ^ 27 % 2 ^ 64)) % 2 ^ 64
  let key := Nat.xor key (key / 2 ^ 31)
  key % 2 ^ 32

/-- `DenseMapInfo<CheriCapRelocLocation>::getHashValue` (Cheri.h lines
175-178): hash of the pair `(Val.Section, Val.Offset)`; `NeedsDynReloc` is
not consulted. -/
def CheriCapRelocLocation.getHashValue (Val : CheriCapRelocLocation) : Nat :=
  pairHash (ptrHash Val.Sec) (u64Hash Val.Offset)

/-! ## Helper lemmas -/

theorem elf_error_count_of_not_exited (cfg : Config) (st : DiagState)
    (h : (elf.error cfg st).exited = false) :
    (elf.error cfg st).st.ErrorCount = st.ErrorCount + 1 := by
  unfold elf.error at *
  split_ifs at * <;> simp_all

theorem elf_error_count_of_exited (cfg : Config) (st : DiagState)
    (h : (elf.error cfg st).exited = true) :
    (elf.error cfg st).st.ErrorCount = st.ErrorCount := by
  unfold elf.error at *
  split_ifs at * <;> simp_all

theorem elf_error_warningCount (cfg : Config) (st : DiagState) :
    (elf.error cfg st).st.WarningCount = st.WarningCount := by
  unfold elf.error
  split_ifs <;> rfl

theorem locEq_refl (l : CheriCapRelocLocation) : l.locEq l = true := by
  simp [CheriCapRelocLocation.locEq]

theorem relEq_refl (r : CheriCapReloc) : r.relEq r = true := by
  simp [CheriCapReloc.relEq]

theorem find_append_of_none (m : RelocsMap) (Loc : CheriCapRelocLocation)
    (r : CheriCapReloc) (h : m.find Loc = none) :
    RelocsMap.find (m ++ [(Loc, r)]) Loc = some r := by
  induction m with
  | nil => simp [RelocsMap.find, locEq_refl]
  | cons x rest ih =>
    rcases x with ⟨k, v⟩
    rw [List.cons_append]
    simp only [RelocsMap.find] at h ⊢
    by_cases hk : k.locEq Loc = true
    · simp [hk] at h
    · simp only [Bool.not_eq_true] at hk
      simp only [hk, Bool.false_eq_true, if_false] at h ⊢
      exact ih h

theorem u64Bytes_length (L : Bool) (v : Nat) : (u64Bytes L v).length = 8 := by
  unfold u64Bytes
  split <;> simp

theorem u64Decode_u64Bytes (L : Bool) (v : Nat) :
    u64Decode L (u64Bytes L v) = v % 2 ^ 64 := by
  cases L <;>
    simp [u64Bytes, u64Decode, List.enum, List.enumFrom] <;>
    norm_num <;>
    omega

theorem assignOrder_length (E : CapTableEntries) :
    (CheriCapTableSection.assignOrder E).length = E.length := by
  unfold CheriCapTableSection.assignOrder
  rw [List.length_append]
  exact (List.length_eq_length_filter_add _).symm

theorem assignIndices_length (E : CapTableEntries) :
    (CheriCapTableSection.assignIndices E).length = E.length := by
  simp [CheriCapTableSection.assignIndices, List.enum_length, assignOrder_length]

theorem assignIndices_flag (E : CapTableEntries) (k : Nat)
    (hk1 : k < (CheriCapTableSection.assignIndices E).length)
    (hk2 : k < (CheriCapTableSection.assignOrder E).length) :
    ((CheriCapTableSection.assignIndices E).get ⟨k, hk1⟩).2.NeedsSmallImm =
      ((CheriCapTableSection.assignOrder E).get ⟨k, hk2⟩).2.NeedsSmallImm := by
  simp [CheriCapTableSection.assignIndices, List.get_eq_getElem, List.getElem_map,
        List.getElem_enum]

theorem order_flag_lt (E : CapTableEntries) (k : Nat)
    (hk : k < (CheriCapTableSection.assignOrder E).length)
    (h : k < (E.filter (fun e => e.2.NeedsSmallImm)).length) :
    ((CheriCapTableSection.assignOrder E).get ⟨k, hk⟩).2.NeedsSmallImm = true := by
  have hget : (CheriCapTableSection.assignOrder E).get ⟨k, hk⟩ =
      (E.filter (fun e => e.2.NeedsSmallImm)).get ⟨k, h⟩ := by
    simp only [CheriCapTableSection.assignOrder, List.get_eq_getElem]
    exact List.getElem_append_left h
  rw [hget]
  have hmem : (E.filter (fun e => e.2.NeedsSmallImm)).get ⟨k, h⟩ ∈
      E.filter (fun e => e.2.NeedsSmallImm) := List.get_mem _ _ _
  have h5 := (List.mem_filter.mp hmem).2
  simpa using h5

theorem order_flag_ge (E : CapTableEntries) (k : Nat)
    (hk : k < (CheriCapTableSection.assignOrder E).length)
    (h : (E.filter (fun e => e.2.NeedsSmallImm)).length ≤ k) :
    ((CheriCapTableSection.assignOrder E).get ⟨k, hk⟩).2.NeedsSmallImm = false := by
  have hk2 : k - (E.filter (fun e => e.2.NeedsSmallImm)).length <
      (E.filter (fun e => !e.2.NeedsSmallImm)).length := by
    have h3 := hk
    rw [CheriCapTableSection.assignOrder, List.length_append] at h3
    omega
  have hget : (CheriCapTableSection.assignOrder E).get ⟨k, hk⟩ =
      (E.filter (fun e => !e.2.NeedsSmallImm)).get
        ⟨k - (E.filter (fun e => e.2.NeedsSmallImm)).length, hk2⟩ := by
    simp only [CheriCapTableSection.assignOrder, List.get_eq_getElem]
    exact List.getElem_append_right h
  rw [hget]
  have hmem : (E.filter (fun e => !e.2.NeedsSmallImm)).get
      ⟨k - (E.filter (fun e => e.2.NeedsSmallImm)).length, hk2⟩ ∈
      E.filter (fun e => !e.2.NeedsSmallImm) := List.get_mem _ _ _
  have h4 := (List.mem_filter.mp hmem).2
  simpa using h4

/-! ## Claim theorems -/

/-- C8 (amended): the error counter never decreases, every `error()` call that
returns increments it by exactly one, calls made past the limit are suppressed
(nothing printed) but still counted, and the call made exactly at the limit
prints the "too many errors" notice and terminates the process iff the
immediate-exit policy is configured — in which case the counter is *not*
incremented, the one deviation from the original claim. -/
theorem elf_error_limit_spec (cfg : Config) (st : DiagState) :
    st.ErrorCount ≤ (elf.error cfg st).st.ErrorCount ∧
    ((elf.error cfg st).exited = false →
      (elf.error cfg st).st.ErrorCount = st.ErrorCount + 1) ∧
    ((elf.error cfg st).exited = true →
      (elf.error cfg st).st.ErrorCount = st.ErrorCount) ∧
    (cfg.ErrorLimit ≠ 0 → cfg.ErrorLimit < st.ErrorCount →
      (elf.error cfg st).printedMsg = false ∧
      (elf.error cfg st).printedTooMany = false ∧
      (elf.error cfg st).exited = false ∧
      (elf.error cfg st).st.ErrorCount = st.ErrorCount + 1) ∧
    (cfg.ErrorLimit ≠ 0 → st.ErrorCount = cfg.ErrorLimit →
      (elf.error cfg st).printedTooMany = true ∧
      (elf.error cfg st).exited = cfg.ExitEarly) := by
  unfold elf.error
  split_ifs with h1 h2 h3 <;>
    simp_all [Bool.or_eq_true, beq_iff_eq, decide_eq_true_eq] <;>
    omega

/-- C8 (counterexample): with `ErrorLimit = 1` and `ExitEarly = true`, the
`error()` call made when `ErrorCount = 1` terminates the process *without*
incrementing the counter, contradicting "every call to error() increments the
counter by exactly one". -/
theorem elf_error_increment_counterexample :
    (elf.error ⟨1, 0, true, false⟩ ⟨1, 0⟩).exited = true ∧
    (elf.error ⟨1, 0, true, false⟩ ⟨1, 0⟩).st.ErrorCount = 1 := by
  decide

/-- C8 (witness): at `ErrorLimit = 2`, `ExitEarly = false`, `ErrorCount = 3`
(past the limit), the call is suppressed but still counted. -/
theorem elf_error_limit_spec_witness :
    (2 : Nat) ≠ 0 ∧ (2 : Nat) < 3 ∧
    (elf.error ⟨2, 0, false, false⟩ ⟨3, 0⟩).printedMsg = false ∧
    (elf.error ⟨2, 0, false, false⟩ ⟨3, 0⟩).printedTooMany = false ∧
    (elf.error ⟨2, 0, false, false⟩ ⟨3, 0⟩).exited = false ∧
    (elf.error ⟨2, 0, false, false⟩ ⟨3, 0⟩).st.ErrorCount = 3 + 1 :=
  ⟨by decide, by decide,
   (elf_error_limit_spec ⟨2, 0, false, false⟩ ⟨3, 0⟩).2.2.2.1 (by decide) (by decide)⟩

/-- C10: when `Config->FatalWarnings` is set, `warn(msg)` behaves exactly as
`error(msg)` — same counter updates, printing, suppression and exit policy —
and the warning counter is left untouched. -/
theorem elf_warn_fatalWarnings_spec (cfg : Config) (st : DiagState)
    (h : cfg.FatalWarnings = true) :
    elf.warn cfg st = elf.error cfg st ∧
    (elf.warn cfg st).st.WarningCount = st.WarningCount := by
  have hw : elf.warn cfg st = elf.error cfg st := by
    unfold elf.warn
    simp [h]
  exact ⟨hw, by rw [hw]; exact elf_error_warningCount cfg st⟩

/-- C10 (witness): concrete instance with `FatalWarnings = true`. -/
theorem elf_warn_fatalWarnings_spec_witness :
    elf.warn ⟨0, 5, false, true⟩ ⟨0, 0⟩ = elf.error ⟨0, 5, false, true⟩ ⟨0, 0⟩ ∧
    (elf.warn ⟨0, 5, false, true⟩ ⟨0, 0⟩).st.WarningCount = 0 :=
  elf_warn_fatalWarnings_spec ⟨0, 5, false, true⟩ ⟨0, 0⟩ rfl

/-- C9: the capability table's `getSize` returns `entry_count *
capability_width`; when entries exist but the width is zero the assertion
`CapabilitySize > 0` fails (a precondition violation, modelled as `none`). -/
theorem capTable_getSize_spec (Entries : CapTableEntries) (CapabilitySize : Nat) :
    (Entries ≠ [] → CapabilitySize = 0 →
      CheriCapTableSection.getSize Entries CapabilitySize = none) ∧
    (Entries = [] ∨ CapabilitySize ≠ 0 →
      CheriCapTableSection.getSize Entries CapabilitySize =
        some (Entries.length * CapabilitySize)) := by
  unfold CheriCapTableSection.getSize
  constructor
  · intro hne hz
    rw [if_pos]
    simp [hz, List.isEmpty_iff, hne]
  · intro hc
    rw [if_neg]
    rcases hc with hc | hc <;> simp [hc, List.isEmpty_iff]

/-- C9 (witness): one entry with width 0 fails; one entry with width 16 gives
16 bytes. -/
theorem capTable_getSize_spec_witness :
    CheriCapTableSection.getSize [(1, ⟨none, false⟩)] 0 = none ∧
    CheriCapTableSection.getSize [(1, ⟨none, false⟩)] 16 = some (1 * 16) :=
  ⟨(capTable_getSize_spec [(1, ⟨none, false⟩)] 0).1 (by decide) rfl,
   (capTable_getSize_spec [(1, ⟨none, false⟩)] 16).2 (Or.inr (by decide))⟩

/-- C1: calling `addEntry` at a location already mapped to a structurally
different record reports exactly one conflict through `elf::error` (the error
counter grows by exactly one, provided that call returns), leaves the map —
and hence the entry count and the first-inserted record — unchanged, and
returns `false`. -/
theorem addEntry_conflict_spec (cfg : Config) (diag : DiagState) (m : RelocsMap)
    (Loc : CheriCapRelocLocation) (old Relocation : CheriCapReloc)
    (hfound : m.find Loc = some old)
    (hdiff : old.relEq Relocation = false)
    (hret : (elf.error cfg diag).exited = false) :
    (CheriCapRelocsSection.addEntry cfg diag m Loc Relocation).errorsReported = 1 ∧
    (CheriCapRelocsSection.addEntry cfg diag m Loc Relocation).diag.ErrorCount =
      diag.ErrorCount + 1 ∧
    (CheriCapRelocsSection.addEntry cfg diag m Loc Relocation).map = m ∧
    RelocsMap.find (CheriCapRelocsSection.addEntry cfg diag m Loc Relocation).map Loc =
      some old ∧
    (CheriCapRelocsSection.addEntry cfg diag m Loc Relocation).inserted = false := by
  unfold CheriCapRelocsSection.addEntry
  simp [RelocsMap.insert, hfound, hdiff, elf_error_count_of_not_exited cfg diag hret]

/-- C1 (witness): a concrete conflicting insertion on a one-entry table with
a fresh diagnostic state. -/
theorem addEntry_conflict_spec_witness :
    RelocsMap.find [(⟨0, 16, false⟩, ⟨⟨1, 0⟩, 0, false⟩)] ⟨0, 16, false⟩ =
      some ⟨⟨1, 0⟩, 0, false⟩ ∧
    CheriCapReloc.relEq ⟨⟨1, 0⟩, 0, false⟩ ⟨⟨2, 0⟩, 0, false⟩ = false ∧
    (CheriCapRelocsSection.addEntry ⟨0, 0, false, false⟩ ⟨0, 0⟩
        [(⟨0, 16, false⟩, ⟨⟨1, 0⟩, 0, false⟩)] ⟨0, 16, false⟩
        ⟨⟨2, 0⟩, 0, false⟩).errorsReported = 1 ∧
    (CheriCapRelocsSection.addEntry ⟨0, 0, false, false⟩ ⟨0, 0⟩
        [(⟨0, 16, false⟩, ⟨⟨1, 0⟩, 0, false⟩)] ⟨0, 16, false⟩
        ⟨⟨2, 0⟩, 0, false⟩).diag.ErrorCount = 0 + 1 ∧
    (CheriCapRelocsSection.addEntry ⟨0, 0, false, false⟩ ⟨0, 0⟩
        [(⟨0, 16, false⟩, ⟨⟨1, 0⟩, 0, false⟩)] ⟨0, 16, false⟩
        ⟨⟨2, 0⟩, 0, false⟩).inserted = false := by
  refine ⟨by decide, by decide, ?_⟩
  have h := addEntry_conflict_spec ⟨0, 0, false, false⟩ ⟨0, 0⟩
    [(⟨0, 16, false⟩, ⟨⟨1, 0⟩, 0, false⟩)] ⟨0, 16, false⟩
    ⟨⟨1, 0⟩, 0, false⟩ ⟨⟨2, 0⟩, 0, false⟩ (by decide) (by decide) (by decide)
  exact ⟨h.1, h.2.1, h.2.2.2.2⟩

/-- C4 (counterexample): if the location is already occupied by a *different*
record before the two identical insertions, the second insertion still
reports a conflict and advances the error counter — the claim's "for every
CapRelocTable state" quantification fails on such a state. -/
theorem addEntry_idempotent_counterexample :
    (CheriCapRelocsSection.addEntry ⟨0, 0, false, false⟩
        (CheriCapRelocsSection.addEntry ⟨0, 0, false, false⟩ ⟨0, 0⟩
          [(⟨0, 16, false⟩, ⟨⟨1, 0⟩, 0, false⟩)] ⟨0, 16, false⟩
          ⟨⟨2, 0⟩, 0, false⟩).diag
        (CheriCapRelocsSection.addEntry ⟨0, 0, false, false⟩ ⟨0, 0⟩
          [(⟨0, 16, false⟩, ⟨⟨1, 0⟩, 0, false⟩)] ⟨0, 16, false⟩
          ⟨⟨2, 0⟩, 0, false⟩).map
        ⟨0, 16, false⟩ ⟨⟨2, 0⟩, 0, false⟩).errorsReported = 1 ∧
    (CheriCapRelocsSection.addEntry ⟨0, 0, false, false⟩
        (CheriCapRelocsSection.addEntry ⟨0, 0, false, false⟩ ⟨0, 0⟩
          [(⟨0, 16, false⟩, ⟨⟨1, 0⟩, 0, false⟩)] ⟨0, 16, false⟩
          ⟨⟨2, 0⟩, 0, false⟩).diag
        (CheriCapRelocsSection.addEntry ⟨0, 0, false, false⟩ ⟨0, 0⟩
          [(⟨0, 16, false⟩, ⟨⟨1, 0⟩, 0, false⟩)] ⟨0, 16, false⟩
          ⟨⟨2, 0⟩, 0, false⟩).map
        ⟨0, 16, false⟩ ⟨⟨2, 0⟩, 0, false⟩).diag.ErrorCount = 2 := by
  decide

/-- C4 (amended): inserting the same `(location, record)` pair twice is
idempotent *provided the first insertion itself reported no conflict* (the
location was free or already held a structurally equal record): the second
call reports no conflict, leaves the diagnostic state, the map (count and
contents) unchanged, and returns `false`. -/
theorem addEntry_idempotent_amended (cfg : Config) (diag : DiagState)
    (m : RelocsMap) (Loc : CheriCapRelocLocation) (Relocation : CheriCapReloc)
    (hfirst : (CheriCapRelocsSection.addEntry cfg diag m Loc Relocation).errorsReported = 0) :
    (CheriCapRelocsSection.addEntry cfg
        (CheriCapRelocsSection.addEntry cfg diag m Loc Relocation).diag
        (CheriCapRelocsSection.addEntry cfg diag m Loc Relocation).map
        Loc Relocation).errorsReported = 0 ∧
    (CheriCapRelocsSection.addEntry cfg
        (CheriCapRelocsSection.addEntry cfg diag m Loc Relocation).diag
        (CheriCapRelocsSection.addEntry cfg diag m Loc Relocation).map
        Loc Relocation).diag =
      (CheriCapRelocsSection.addEntry cfg diag m Loc Relocation).diag ∧
    (CheriCapRelocsSection.addEntry cfg
        (CheriCapRelocsSection.addEntry cfg diag m Loc Relocation).diag
        (CheriCapRelocsSection.addEntry cfg diag m Loc Relocation).map
        Loc Relocation).map =
      (CheriCapRelocsSection.addEntry cfg diag m Loc Relocation).map ∧
    (CheriCapRelocsSection.addEntry cfg
        (CheriCapRelocsSection.addEntry cfg diag m Loc Relocation).diag
        (CheriCapRelocsSection.addEntry cfg diag m Loc Relocation).map
        Loc Relocation).inserted = false := by
  rcases hf : m.find Loc with _ | v
  · have h2 : RelocsMap.find (m ++ [(Loc, Relocation)]) Loc = some Relocation :=
      find_append_of_none m Loc Relocation hf
    unfold CheriCapRelocsSection.addEntry
    simp [RelocsMap.insert, hf, h2, relEq_refl]
  · rcases hv : v.relEq Relocation with _ | _
    · exfalso
      unfold CheriCapRelocsSection.addEntry at hfirst
      simp [RelocsMap.insert, hf, hv] at hfirst
    · unfold CheriCapRelocsSection.addEntry
      simp [RelocsMap.insert, hf, hv]

/-- C4 (witness): inserting the same pair twice into an empty table. -/
theorem addEntry_idempotent_amended_witness :
    (CheriCapRelocsSection.addEntry ⟨0, 0, false, false⟩ ⟨0, 0⟩ []
        ⟨0, 16, false⟩ ⟨⟨1, 0⟩, 0, false⟩).errorsReported = 0 ∧
    (CheriCapRelocsSection.addEntry ⟨0, 0, false, false⟩
        (CheriCapRelocsSection.addEntry ⟨0, 0, false, false⟩ ⟨0, 0⟩ []
          ⟨0, 16, false⟩ ⟨⟨1, 0⟩, 0, false⟩).diag
        (CheriCapRelocsSection.addEntry ⟨0, 0, false, false⟩ ⟨0, 0⟩ []
          ⟨0, 16, false⟩ ⟨⟨1, 0⟩, 0, false⟩).map
        ⟨0, 16, false⟩ ⟨⟨1, 0⟩, 0, false⟩).errorsReported = 0 ∧
    (CheriCapRelocsSection.addEntry ⟨0, 0, false, false⟩
        (CheriCapRelocsSection.addEntry ⟨0, 0, false, false⟩ ⟨0, 0⟩ []
          ⟨0, 16, false⟩ ⟨⟨1, 0⟩, 0, false⟩).diag
        (CheriCapRelocsSection.addEntry ⟨0, 0, false, false⟩ ⟨0, 0⟩ []
          ⟨0, 16, false⟩ ⟨⟨1, 0⟩, 0, false⟩).map
        ⟨0, 16, false⟩ ⟨⟨1, 0⟩, 0, false⟩).inserted = false := by
  refine ⟨by decide, ?_⟩
  have h := addEntry_idempotent_amended ⟨0, 0, false, false⟩ ⟨0, 0⟩ []
    ⟨0, 16, false⟩ ⟨⟨1, 0⟩, 0, false⟩ (by decide)
  exact ⟨h.1, h.2.2.2⟩

/-- C6: `CheriCapRelocLocation` equality holds iff the `(Section, Offset)`
components agree — `NeedsDynReloc` is ignored — and the `DenseMapInfo` hash
is congruent with this equality: equal locations hash identically, since the
hash is computed from the pair `(Section, Offset)` alone. -/
theorem capRelocLocation_eq_hash_spec (a b : CheriCapRelocLocation) :
    (a.locEq b = true ↔ a.Sec = b.Sec ∧ a.Offset = b.Offset) ∧
    (a.locEq b = true → a.getHashValue = b.getHashValue) := by
  have heq : a.locEq b = true ↔ a.Sec = b.Sec ∧ a.Offset = b.Offset := by
    simp [CheriCapRelocLocation.locEq]
  refine ⟨heq, fun h => ?_⟩
  obtain ⟨h1, h2⟩ := heq.mp h
  unfold CheriCapRelocLocation.getHashValue
  rw [h1, h2]

/-- C6 (witness): two locations differing only in the dynamic-fixup flag are
equal and hash identically. -/
theorem capRelocLocation_eq_hash_spec_witness :
    CheriCapRelocLocation.locEq ⟨3, 5, false⟩ ⟨3, 5, true⟩ = true ∧
    CheriCapRelocLocation.getHashValue ⟨3, 5, false⟩ =
      CheriCapRelocLocation.getHashValue ⟨3, 5, true⟩ :=
  ⟨by decide, (capRelocLocation_eq_hash_spec ⟨3, 5, false⟩ ⟨3, 5, true⟩).2 (by decide)⟩

/-- C3: when some entry needs a dynamic fixup the table keeps first-insertion
order: the emission order is the map itself and the serialized byte stream is
the concatenation of the per-entry 40-byte records in first-insertion order,
for every resolution of the record fields. -/
theorem capRelocs_dynamic_order_spec (isLittle : Bool)
    (resolve : CheriCapRelocLocation × CheriCapReloc → InMemoryCapRelocEntry)
    (m : RelocsMap)
    (hdyn : CheriCapRelocsSection.containsDynamicRelocations m = true) :
    CheriCapRelocsSection.emissionOrder m = m ∧
    CheriCapRelocsSection.writeTo isLittle resolve m =
      (m.map (fun ent => (resolve ent).bytes isLittle)).flatten := by
  unfold CheriCapRelocsSection.writeTo CheriCapRelocsSection.emissionOrder
  simp [hdyn]

/-- C3 (witness): a two-entry table whose second entry needs a dynamic fixup
is emitted as-is. -/
theorem capRelocs_dynamic_order_spec_witness :
    CheriCapRelocsSection.containsDynamicRelocations
      [(⟨1, 32, false⟩, ⟨⟨7, 0⟩, 0, false⟩), (⟨0, 16, true⟩, ⟨⟨5, 0⟩, 0, true⟩)] = true ∧
    CheriCapRelocsSection.emissionOrder
      [(⟨1, 32, false⟩, ⟨⟨7, 0⟩, 0, false⟩), (⟨0, 16, true⟩, ⟨⟨5, 0⟩, 0, true⟩)] =
      [(⟨1, 32, false⟩, ⟨⟨7, 0⟩, 0, false⟩), (⟨0, 16, true⟩, ⟨⟨5, 0⟩, 0, true⟩)] :=
  ⟨by decide,
   (capRelocs_dynamic_order_spec true (fun _ => ⟨0, 0, 0, 0, 0⟩)
     [(⟨1, 32, false⟩, ⟨⟨7, 0⟩, 0, false⟩), (⟨0, 16, true⟩, ⟨⟨5, 0⟩, 0, true⟩)]
     (by decide)).1⟩

/-- C5: a serialized capability-relocation record is exactly 40 bytes, the
five 64-bit fields laid out in target endianness in declaration order
(`capability_location`, `object`, `offset`, `size`, `permissions` — each
recoverable from its 8-byte slice), and the section's `getSize` is
`entry_count * 40`. -/
theorem capReloc_record_layout_spec (L : Bool) (e : InMemoryCapRelocEntry)
    (m : RelocsMap) :
    (e.bytes L).length = 40 ∧
    u64Decode L ((e.bytes L).take 8) = e.capability_location % 2 ^ 64 ∧
    u64Decode L (((e.bytes L).drop 8).take 8) = e.object % 2 ^ 64 ∧
    u64Decode L (((e.bytes L).drop 16).take 8) = e.offset % 2 ^ 64 ∧
    u64Decode L (((e.bytes L).drop 24).take 8) = e.size % 2 ^ 64 ∧
    u64Decode L ((e.bytes L).drop 32) = e.permissions % 2 ^ 64 ∧
    CheriCapRelocsSection.getSize m = m.length * 40 := by
  have hb : e.bytes L =
      u64Bytes L e.capability_location ++ (u64Bytes L e.object ++ (u64Bytes L e.offset ++
        (u64Bytes L e.size ++ u64Bytes L e.permissions))) := by
    simp [InMemoryCapRelocEntry.bytes, List.append_assoc]
  have h8 : ∀ x : Nat, (u64Bytes L x).length = 8 := fun x => u64Bytes_length L x
  have hd8 : ∀ (x : Nat) (rest : List Nat), (u64Bytes L x ++ rest).drop 8 = rest :=
    fun x rest => List.drop_left' (h8 x)
  have ht8 : ∀ (x : Nat) (rest : List Nat), (u64Bytes L x ++ rest).take 8 = u64Bytes L x :=
    fun x rest => List.take_left' (h8 x)
  have h16 : ∀ l : List Nat, l.drop 16 = (l.drop 8).drop 8 := by
    intro l; rw [List.drop_drop]
  have h24 : ∀ l : List Nat, l.drop 24 = (l.drop 16).drop 8 := by
    intro l; rw [List.drop_drop]
  have h32 : ∀ l : List Nat, l.drop 32 = (l.drop 24).drop 8 := by
    intro l; rw [List.drop_drop]
  refine ⟨?_, ?_, ?_, ?_, ?_, ?_, rfl⟩
  · simp [hb, h8]
  · rw [hb, ht8, u64Decode_u64Bytes]
  · rw [hb, hd8, ht8, u64Decode_u64Bytes]
  · rw [h16, hb, hd8, hd8, ht8, u64Decode_u64Bytes]
  · rw [h24, h16, hb, hd8, hd8, hd8, ht8, u64Decode_u64Bytes]
  · rw [h32, h24, h16, hb, hd8, hd8, hd8, hd8, u64Decode_u64Bytes]

/-- C7: the `.global_sizes` walk visits exactly the defined symbols of the
section minus the anonymous local section self-symbol; it reports one
non-fatal error per visited symbol whose name lacks the `.size.` prefix while
continuing the walk, and for every prefixed symbol it strips the prefix,
looks the remainder up in the global symbol table, and passes the possibly
absent target together with the symbol's value to the callback, in walk
order. -/
theorem foreachGlobalSizesSymbol_spec (IS : Nat) (symtab : List (String × Nat))
    (syms : List InputSym) :
    (foreachGlobalSizesSymbol IS symtab syms).1 =
      (visitedSyms IS syms).countP (fun D => !(D.name.startsWith ".size.")) ∧
    (foreachGlobalSizesSymbol IS symtab syms).2 =
      ((visitedSyms IS syms).filter (fun D => D.name.startsWith ".size.")).map
        (fun D => (D.name.drop ".size.".length,
                   symtabFind symtab (D.name.drop ".size.".length), D.value)) := by
  induction syms with
  | nil => simp [foreachGlobalSizesSymbol, visitedSyms]
  | cons s rest ih =>
    cases s with
    | other => simpa [foreachGlobalSizesSymbol, visitedSyms] using ih
    | defined D =>
      by_cases h1 : D.Sec = IS
      · by_cases h2 : ((D.isSec = true ∧ D.isLocal = true) ∧ D.name = "")
        · simp [foreachGlobalSizesSymbol, visitedSyms, h1, h2, ih.1, ih.2]
        · by_cases h3 : D.name.startsWith ".size." = true
          · simp [foreachGlobalSizesSymbol, visitedSyms, h1, h2, h3, ih.1, ih.2,
                  List.countP_cons, List.filter_cons]
          · simp [foreachGlobalSizesSymbol, visitedSyms, h1, h2, h3, ih.1, ih.2,
                  List.countP_cons, List.filter_cons]
      · simp [foreachGlobalSizesSymbol, visitedSyms, h1, ih.1, ih.2]

/-- C2: after finalization the capability table's indices are exactly
`0, 1, ..., entry_count - 1` in list position order, every small-immediate
entry sits strictly before every non-small entry, and each of the two groups
keeps its original first-insertion order (the reordered list restricted to
either group equals the corresponding filter of the input). -/
theorem capTable_finalize_spec (Entries : CapTableEntries) :
    (CheriCapTableSection.assignIndices Entries).length = Entries.length ∧
    (CheriCapTableSection.assignIndices Entries).map (fun e => e.2.Index) =
      (List.range Entries.length).map some ∧
    (∀ (i j : Nat) (hi : i < (CheriCapTableSection.assignIndices Entries).length)
        (hj : j < (CheriCapTableSection.assignIndices Entries).length),
      ((CheriCapTableSection.assignIndices Entries).get ⟨i, hi⟩).2.NeedsSmallImm = true →
      ((CheriCapTableSection.assignIndices Entries).get ⟨j, hj⟩).2.NeedsSmallImm = false →
      i < j) ∧
    (CheriCapTableSection.assignIndices Entries).map (fun e => (e.1, e.2.NeedsSmallImm)) =
      (CheriCapTableSection.assignOrder Entries).map (fun e => (e.1, e.2.NeedsSmallImm)) ∧
    (CheriCapTableSection.assignOrder Entries).filter (fun e => e.2.NeedsSmallImm) =
      Entries.filter (fun e => e.2.NeedsSmallImm) ∧
    (CheriCapTableSection.assignOrder Entries).filter (fun e => !e.2.NeedsSmallImm) =
      Entries.filter (fun e => !e.2.NeedsSmallImm) := by
  refine ⟨assignIndices_length Entries, ?_, ?_, ?_, ?_, ?_⟩
  · unfold CheriCapTableSection.assignIndices
    rw [List.map_map]
    have hc : ((fun e : Nat × CapTableIndex => e.2.Index) ∘
        (fun p : Nat × (Nat × CapTableIndex) => (p.2.1, { p.2.2 with Index := some p.1 }))) =
        (some ∘ Prod.fst) := rfl
    rw [hc, ← List.map_map, List.enum_map_fst, assignOrder_length]
  · intro i j hi hj hsi hsj
    have hi2 : i < (CheriCapTableSection.assignOrder Entries).length := by
      rw [assignOrder_length]
      rw [assignIndices_length Entries] at hi
      exact hi
    have hj2 : j < (CheriCapTableSection.assignOrder Entries).length := by
      rw [assignOrder_length]
      rw [assignIndices_length Entries] at hj
      exact hj
    rw [assignIndices_flag Entries i hi hi2] at hsi
    rw [assignIndices_flag Entries j hj hj2] at hsj
    by_contra hij
    have hji : j ≤ i := by omega
    rcases Nat.lt_or_ge j (Entries.filter (fun e => e.2.NeedsSmallImm)).length with hj3 | hj3
    · rw [order_flag_lt Entries j hj2 hj3] at hsj
      simp at hsj
    · have hi3 : (Entries.filter (fun e => e.2.NeedsSmallImm)).length ≤ i :=
        le_trans hj3 hji
      rw [order_flag_ge Entries i hi2 hi3] at hsi
      simp at hsi
  · unfold CheriCapTableSection.assignIndices
    rw [List.map_map]
    have hc : ((fun e : Nat × CapTableIndex => (e.1, e.2.NeedsSmallImm)) ∘
        (fun p : Nat × (Nat × CapTableIndex) => (p.2.1, { p.2.2 with Index := some p.1 }))) =
        ((fun e : Nat × CapTableIndex => (e.1, e.2.NeedsSmallImm)) ∘ Prod.snd) := rfl
    rw [hc, ← List.map_map, List.enum_map_snd]
  · unfold CheriCapTableSection.assignOrder
    rw [List.filter_append]
    simp [List.filter_filter]
  · unfold CheriCapTableSection.assignOrder
    rw [List.filter_append]
    simp [List.filter_filter]

/-- C2 (witness): symbols `a = 10` (small), `b = 11` (not), `c = 12` (small)
added in that order finalize to `a = 0`, `c = 1`, `b = 2`; and the theorem
applied at position 0 (small) versus position 2 (non-small) gives `0 < 2`. -/
theorem capTable_finalize_spec_witness :
    CheriCapTableSection.assignIndices
        [(10, ⟨none, true⟩), (11, ⟨none, false⟩), (12, ⟨none, true⟩)] =
      [(10, ⟨some 0, true⟩), (12, ⟨some 1, true⟩), (11, ⟨some 2, false⟩)] ∧
    (0 : Nat) < 2 := by
  refine ⟨by decide, ?_⟩
  exact (capTable_finalize_spec
      [(10, ⟨none, true⟩), (11, ⟨none, false⟩), (12, ⟨none, true⟩)]).2.2.1 0 2
    (by decide) (by decide) (by decide) (by decide)

end LldCheri
